import Mathlib

/-!
Verification development for the Hybrid Indexing & Search Engine of
mcp-skillset. The engine itself (services/indexing, services/auto_updater,
the MCP tool layer and the hybrid-search configuration) is modelled here as
executable Lean definitions; scores are rationals.
-/

set_option maxHeartbeats 1000000

namespace MCPSkillset

/-- Modelled from the spec: the Skill record produced by the Skill Source
(missing module `mcp_skills/models/skill.py`): id, name, description,
instructions, category, tags, dependencies, repo id. -/
structure Skill where
  id : String
  name : String
  description : String
  instructions : String
  category : String
  tags : List String
  dependencies : List String
  repo_id : String
deriving Repr, DecidableEq

/-- Modelled from the spec: the metadata record copied from the Skill into
the Vector Index at index time (missing module
`mcp_skills/services/indexing/vector_store.py`). -/
structure SkillMetadata where
  skill_id : String
  name : String
  category : String
  tags : List String
deriving Repr, DecidableEq

/-- Modelled from the spec: one Vector Index entry per skill id; the
embedding is represented by the embeddable text it is computed from. -/
structure VectorEntry where
  id : String
  text : String
  meta : SkillMetadata
deriving Repr, DecidableEq

/-- Modelled from the spec: the three relationship kinds of the
Relationship Graph. -/
inductive RelationKind where
  | depends_on
  | same_category
  | shared_tag
deriving Repr, DecidableEq

/-- Modelled from the spec: a directed labeled edge of the Relationship
Graph, keyed by skill id. -/
structure GraphEdge where
  src : String
  kind : RelationKind
  tgt : String
deriving Repr, DecidableEq

/-- Modelled from the spec: the mutable index state owned by the Index
Lifecycle Manager: the Vector Index entries plus the Relationship Graph
nodes and edges (missing module `mcp_skills/services/indexing/engine.py`). -/
structure IndexCore where
  entries : List VectorEntry
  graphNodes : List String
  graphEdges : List GraphEdge
deriving Repr, DecidableEq

def emptyCore : IndexCore := ⟨[], [], []⟩

/-- Modelled from the spec: the full engine state, index state plus the
`last_indexed` timestamp used by `IndexStats`. -/
structure EngineState where
  core : IndexCore
  lastIndexed : Option Nat
deriving Repr, DecidableEq

def emptyEngine : EngineState := ⟨emptyCore, none⟩

/-- Modelled from the spec: `IndexStats` as returned by `get_stats` and
`reindex_all`. -/
structure IndexStats where
  total_skills : Nat
  vector_store_size : Nat
  graph_nodes : Nat
  graph_edges : Nat
  last_indexed : Option Nat
deriving Repr, DecidableEq

/-- Modelled from the spec: the Embeddable-Text Builder, a deterministic
pure function of name, description, tags and a bounded slice of the
instructions (missing `_create_embeddable_text`). -/
def createEmbeddableText (s : Skill) : String :=
  s.name ++ " " ++ s.description ++ " " ++ String.intercalate " " s.tags
    ++ " " ++ (s.instructions.take 500)

/-- Metadata snapshot taken from a skill at index time. -/
def mkMetadata (s : Skill) : SkillMetadata :=
  ⟨s.id, s.name, s.category, s.tags⟩

/-- Vector Index entry built from a skill at index time. -/
def mkEntry (s : Skill) : VectorEntry :=
  ⟨s.id, createEmbeddableText s, mkMetadata s⟩

/-- Modelled from the spec: idempotent `upsert` of the Vector Index —
re-upserting the same id replaces its vector and metadata, a new id is
appended. -/
def upsertEntry (e : VectorEntry) : List VectorEntry → List VectorEntry
  | [] => [e]
  | x :: xs => if x.id = e.id then e :: xs else x :: upsertEntry e xs

/-- The ids currently present in the Vector Index. -/
def vectorIds (c : IndexCore) : List String :=
  c.entries.map VectorEntry.id

/-- Modelled from the spec: `add_node` of the Relationship Graph. -/
def addNode (id : String) (l : List String) : List String :=
  if id ∈ l then l else l ++ [id]

/-- Modelled from the spec: `extract_relationships(skill, corpus)` — one
`depends_on` edge per declared dependency (dangling targets permitted),
`same_category` edges to other indexed skills sharing the category, and
`shared_tag` edges to other indexed skills sharing at least one tag,
computed against the currently indexed corpus. -/
def extract_relationships (s : Skill) (c : IndexCore) : List GraphEdge :=
  (s.dependencies.map (fun d => ⟨s.id, RelationKind.depends_on, d⟩))
  ++ ((c.entries.filter
        (fun e => (e.id != s.id) && (e.meta.category == s.category))).map
      (fun e => ⟨s.id, RelationKind.same_category, e.id⟩))
  ++ ((c.entries.filter
        (fun e => (e.id != s.id) && s.tags.any (fun t => e.meta.tags.contains t))).map
      (fun e => ⟨s.id, RelationKind.shared_tag, e.id⟩))

/-- Modelled from the spec: `index_skill` on the index state — build the
embeddable text, upsert into the Vector Index, add the node and the
extracted relationship edges to the Relationship Graph. -/
def index_core (c : IndexCore) (s : Skill) : IndexCore :=
  { entries := upsertEntry (mkEntry s) c.entries
    graphNodes := addNode s.id c.graphNodes
    graphEdges := c.graphEdges ++ extract_relationships s c }

/-- Modelled from the spec: `index_skill(skill)` exposed by the Index
Lifecycle Manager; it never touches the timestamp. -/
def index_skill (st : EngineState) (s : Skill) : EngineState :=
  { st with core := index_core st.core s }

/-- Modelled from the spec: `get_stats() -> IndexStats`, a read-only
snapshot; `vector_store_size` is the estimate of 2048 bytes per indexed
skill pinned by `test_get_stats_estimates_size`. -/
def get_stats (st : EngineState) : IndexStats :=
  { total_skills := st.core.entries.length
    vector_store_size := st.core.entries.length * 2048
    graph_nodes := st.core.graphNodes.length
    graph_edges := st.core.graphEdges.length
    last_indexed := st.lastIndexed }

/-- Modelled from the spec: `reindex_all(force) -> IndexStats` — fails fast
with a configuration error when no Skill Source is configured; when `force`
is true it clears both indices first; then it indexes the discoverable
skill set and returns fresh `IndexStats` with an updated timestamp. -/
def reindex_all (st : EngineState) (force : Bool)
    (skillSource : Option (List Skill)) (now : Nat) :
    Except String (EngineState × IndexStats) :=
  match skillSource with
  | none => Except.error "SkillManager not set"
  | some skills =>
    let base := if force then emptyCore else st.core
    let core := skills.foldl index_core base
    let st' : EngineState := ⟨core, some now⟩
    Except.ok (st', get_stats st')

/-- Modelled from the spec: query-time match type of a scored result. -/
inductive MatchType where
  | vector
  | graph
  | hybrid
deriving Repr, DecidableEq

/-- Modelled from the spec: an id with its fused score and match type, the
intermediate result of hybrid result combination. -/
structure CombinedResult where
  skill_id : String
  score : ℚ
  match_type : MatchType
deriving Repr, DecidableEq

/-- Modelled from the spec: `ScoredSkill`, the query-time result record. -/
structure ScoredSkill where
  skill : Skill
  score : ℚ
  match_type : MatchType
deriving Repr, DecidableEq

/-- Insert one combined result into a list sorted by descending score. -/
def insertDesc (p : CombinedResult) : List CombinedResult → List CombinedResult
  | [] => [p]
  | q :: rest => if p.score ≤ q.score then q :: insertDesc p rest else p :: q :: rest

/-- Sort combined results by descending fused score. -/
def sortDesc (l : List CombinedResult) : List CombinedResult :=
  l.foldr insertDesc []

/-- Insert one (id, score) pair into a list sorted by descending score. -/
def insertPairDesc (p : String × ℚ) : List (String × ℚ) → List (String × ℚ)
  | [] => [p]
  | q :: rest => if p.2 ≤ q.2 then q :: insertPairDesc p rest else p :: q :: rest

/-- Sort (id, score) pairs by descending score. -/
def sortPairDesc (l : List (String × ℚ)) : List (String × ℚ) :=
  l.foldr insertPairDesc []

/-- Modelled from the spec: conjunction of metadata filters (category
equality, toolchain-tag containment, tag containment). -/
def matchesFilters (m : SkillMetadata) (category : Option String)
    (toolchain : Option String) (tags : List String) : Bool :=
  (match category with
   | none => true
   | some c => m.category == c)
  && (match toolchain with
      | none => true
      | some t => m.tags.contains t)
  && tags.all (fun t => m.tags.contains t)

/-- Modelled from the spec: `_vector_search` — score every filtered entry
with the similarity oracle, order by descending similarity, return at most
`top_k` hits. -/
def vector_search (c : IndexCore) (sim : String → String → ℚ)
    (query : String) (category toolchain : Option String)
    (tags : List String) (topK : Nat) : List (String × ℚ) :=
  let cands := c.entries.filter (fun e => matchesFilters e.meta category toolchain tags)
  let scored := cands.map (fun e => (e.id, sim query e.text))
  (sortPairDesc scored).take topK

/-- Remove duplicate strings, keeping first occurrences; `seen` accumulates
the strings already kept. -/
def dedupAux : List String → List String → List String
  | [], _ => []
  | x :: xs, seen => if x ∈ seen then dedupAux xs seen else x :: dedupAux xs (x :: seen)

def dedup (l : List String) : List String := dedupAux l []

/-- Undirected neighborhood of a node: edges are stored directed but are
symmetric in effect. -/
def neighbors (c : IndexCore) (id : String) : List String :=
  dedup (c.graphEdges.filterMap
    (fun e => if e.src = id then some e.tgt
              else if e.tgt = id then some e.src else none))

/-- Breadth-first traversal, one layer per recursive step: `frontier` is
the previous layer, `visited` the nodes already discovered, `d` the hop
distance of the next layer, and the remaining depth is the fuel. -/
def bfsGo (c : IndexCore) : Nat → List String → List String → Nat → List (String × Nat)
  | 0, _, _, _ => []
  | Nat.succ k, frontier, visited, d =>
    let next := dedup ((frontier.flatMap (neighbors c)).filter (fun n => !(visited.contains n)))
    (next.map (fun n => (n, d))) ++ bfsGo c k next (visited ++ next) (d + 1)

/-- Modelled from the spec: `bfs(seed_id, max_depth)` — bounded
breadth-first traversal excluding the seed, closer nodes first, paired with
their hop distance. -/
def bfs (c : IndexCore) (seed : String) (maxDepth : Nat) : List (String × Nat) :=
  bfsGo c maxDepth [seed] [seed] 1

/-- Modelled from the spec: `_graph_search` — BFS from the seed, each node
scored by the monotonically decreasing proximity 1 / (1 + hop distance); a
seed absent from the graph yields no candidates. -/
def graph_search (c : IndexCore) (seed : String) (maxDepth : Nat) : List (String × ℚ) :=
  if seed ∈ c.graphNodes then
    (bfs c seed maxDepth).map (fun p => (p.1, 1 / (1 + (p.2 : ℚ))))
  else []

/-- First score recorded for an id in a result set. -/
def lookupScore (l : List (String × ℚ)) (id : String) : Option ℚ :=
  (l.find? (fun p => p.1 == id)).map Prod.snd

/-- Modelled from the spec: `_combine_results` — for every candidate id in
either result set, fuse the two scores with the configured weights (a
missing score defaults to 0), assign the match type, and sort by
descending fused score. -/
def combine_results (vw gw : ℚ) (vres gres : List (String × ℚ)) : List CombinedResult :=
  let ids := dedup (vres.map Prod.fst ++ gres.map Prod.fst)
  sortDesc (ids.map (fun id =>
    let vs := lookupScore vres id
    let gs := lookupScore gres id
    { skill_id := id
      score := vw * vs.getD 0 + gw * gs.getD 0
      match_type :=
        match vs, gs with
        | some _, some _ => MatchType.hybrid
        | some _, none => MatchType.vector
        | none, _ => MatchType.graph }))

/-- Modelled from the spec: `search` of the Hybrid Ranker — an empty query
short-circuits to the empty list; otherwise run the vector query, seed a
bounded BFS from the top vector hit, fuse, resolve each surviving id via
the Skill Source dropping ids that fail to resolve, and return at most
`top_k` results. -/
def search (st : EngineState) (sim : String → String → ℚ)
    (loadSkill : String → Option Skill) (query : String)
    (category toolchain : Option String) (tags : List String)
    (topK : Nat) (vw gw : ℚ) : List ScoredSkill :=
  if query = "" then []
  else
    let vres := vector_search st.core sim query category toolchain tags topK
    let gres :=
      match vres.head? with
      | some p => graph_search st.core p.1 2
      | none => []
    let combined := combine_results vw gw vres gres
    let resolved := combined.filterMap
      (fun cr => (loadSkill cr.skill_id).map
        (fun sk => ScoredSkill.mk sk cr.score cr.match_type))
    resolved.take topK

/-- Response of the MCP `search_skills` tool. -/
structure SearchResponse where
  status : String
  skills : List ScoredSkill
deriving Repr, DecidableEq

/-- Modelled from the spec: the MCP `search_skills` tool (missing module
`mcp_skills/mcp/tools/skill_tools.py`) — a limit above the ceiling of 50 is
silently capped before the engine query, never rejected. -/
def search_skills (st : EngineState) (sim : String → String → ℚ)
    (loadSkill : String → Option Skill) (query : String)
    (category toolchain : Option String) (tags : List String)
    (limit : Nat) (vw gw : ℚ) : SearchResponse :=
  let topK := min limit 50
  { status := "completed"
    skills := search st sim loadSkill query category toolchain tags topK vw gw }

/-- Floating-point tolerance used by the weight validation. -/
def weightTolerance : ℚ := 1 / 1000000

/-- Modelled from the spec: `HybridSearchConfig` (missing from
`mcp_skills/models/config.py` in this checkout): fusion weights validated
at construction. -/
structure HybridSearchConfig where
  vector_weight : ℚ
  graph_weight : ℚ
deriving Repr, DecidableEq

/-- Modelled from the spec: `HybridSearchConfig` construction — an invalid
weight pair is a startup error. -/
def mkHybridSearchConfig (vw gw : ℚ) : Except String HybridSearchConfig :=
  if |vw + gw - 1| ≤ weightTolerance then Except.ok ⟨vw, gw⟩
  else Except.error "Weights must sum to 1.0"

/-- Modelled from the spec: the `HybridSearcher` collaborator (missing
module `mcp_skills/services/indexing/hybrid_search.py`); only its validated
weights matter here. -/
structure HybridSearcher where
  vector_weight : ℚ
  graph_weight : ℚ
deriving Repr, DecidableEq

/-- Modelled from the spec: `HybridSearcher` construction validates the
fusion weights and raises otherwise. -/
def mkHybridSearcher (vw gw : ℚ) : Except String HybridSearcher :=
  if |vw + gw - 1| ≤ weightTolerance then Except.ok ⟨vw, gw⟩
  else Except.error "Weights must sum to 1.0"

/-- Score every entry with a fallible similarity oracle; the first failure
propagates. -/
def mapScoresE (simE : String → Except String ℚ) :
    List VectorEntry → Except String (List (String × ℚ))
  | [] => Except.ok []
  | e :: rest =>
    match simE e.text with
    | Except.error msg => Except.error msg
    | Except.ok sc =>
      match mapScoresE simE rest with
      | Except.error msg => Except.error msg
      | Except.ok l => Except.ok ((e.id, sc) :: l)

/-- Modelled from the spec: `search` with the upstream error channel — an
embedding/similarity failure propagates to the caller; no other error can
arise at query time. -/
def searchE (st : EngineState) (simE : String → String → Except String ℚ)
    (loadSkill : String → Option Skill) (query : String)
    (category toolchain : Option String) (tags : List String)
    (topK : Nat) (vw gw : ℚ) : Except String (List ScoredSkill) :=
  if query = "" then Except.ok []
  else
    match mapScoresE (simE query)
        (st.core.entries.filter (fun e => matchesFilters e.meta category toolchain tags)) with
    | Except.error msg => Except.error msg
    | Except.ok scored =>
      let vres := (sortPairDesc scored).take topK
      let gres :=
        match vres.head? with
        | some p => graph_search st.core p.1 2
        | none => []
      Except.ok (((combine_results vw gw vres gres).filterMap
        (fun cr => (loadSkill cr.skill_id).map
          (fun sk => ScoredSkill.mk sk cr.score cr.match_type))).take topK)

/-- Modelled from the spec: a tracked upstream repository as seen by the
Auto-Updater (missing module `mcp_skills/models/repository.py`):
identifier, last-update timestamp (in hours) and skill count. -/
structure Repository where
  id : String
  last_updated : Nat
  skill_count : Nat
deriving Repr, DecidableEq

/-- Modelled from the spec: `AutoUpdateConfig` — enabled flag and the
max-age staleness threshold in hours. -/
structure AutoUpdateConfig where
  enabled : Bool
  max_age_hours : Nat
deriving Repr, DecidableEq

/-- A repository is stale when its age exceeds the configured threshold. -/
def isStale (cfg : AutoUpdateConfig) (now : Nat) (r : Repository) : Bool :=
  cfg.max_age_hours < now - r.last_updated

def staleRepos (cfg : AutoUpdateConfig) (now : Nat) (repos : List Repository) :
    List Repository :=
  repos.filter (isStale cfg now)

/-- The stale repositories whose update succeeded, paired with their
updated records. -/
def successfulUpdates (stale : List Repository)
    (update : String → Except String Repository) : List (Repository × Repository) :=
  stale.filterMap (fun r =>
    match update r.id with
    | Except.ok r' => some (r, r')
    | Except.error _ => none)

/-- The ids of the stale repositories whose update failed; the failures are
caught, not propagated. -/
def failedUpdates (stale : List Repository)
    (update : String → Except String Repository) : List String :=
  stale.filterMap (fun r =>
    match update r.id with
    | Except.error _ => some r.id
    | Except.ok _ => none)

/-- Observable outcome of one Auto-Updater pass: which repositories were
attempted, which updates failed (caught), how many times
`reindex_all(force=true)` was invoked, and a caught reindex failure. -/
structure UpdateRunResult where
  updatesAttempted : List String
  updateErrors : List String
  reindexCalls : Nat
  reindexError : Option String
deriving Repr, DecidableEq

/-- Aggregate skill count of the successfully updated stale repositories
before their updates. -/
def aggBefore (cfg : AutoUpdateConfig) (now : Nat) (repos : List Repository)
    (update : String → Except String Repository) : Nat :=
  ((successfulUpdates (staleRepos cfg now repos) update).map
    (fun p => p.1.skill_count)).sum

/-- Aggregate skill count of the successfully updated stale repositories
after their updates. -/
def aggAfter (cfg : AutoUpdateConfig) (now : Nat) (repos : List Repository)
    (update : String → Except String Repository) : Nat :=
  ((successfulUpdates (staleRepos cfg now repos) update).map
    (fun p => p.2.skill_count)).sum

/-- A reindex failure is caught and recorded, never rethrown. -/
def caughtReindexError (ro : Except String IndexStats) : Option String :=
  match ro with
  | Except.ok _ => none
  | Except.error e => some e

/-- Modelled from the spec: `check_and_update` of the Auto-Updater (missing
module `mcp_skills/services/auto_updater.py`) — skip everything when
disabled; update every stale repository, catching per-repository failures;
compare the aggregate skill count before and after over the successful
updates; when it changed, invoke `reindex_all(force=true)` exactly once for
the whole pass, catching a reindex failure. The pass itself never raises. -/
def check_and_update (cfg : AutoUpdateConfig) (now : Nat)
    (repos : List Repository) (update : String → Except String Repository)
    (reindexOutcome : Except String IndexStats) : UpdateRunResult :=
  if cfg.enabled then
    if aggBefore cfg now repos update = aggAfter cfg now repos update then
      { updatesAttempted := (staleRepos cfg now repos).map Repository.id
        updateErrors := failedUpdates (staleRepos cfg now repos) update
        reindexCalls := 0
        reindexError := none }
    else
      { updatesAttempted := (staleRepos cfg now repos).map Repository.id
        updateErrors := failedUpdates (staleRepos cfg now repos) update
        reindexCalls := 1
        reindexError := caughtReindexError reindexOutcome }
  else ⟨[], [], 0, none⟩

/-- The lockstep invariant: every id of the Vector Index is a node of the
Relationship Graph. -/
def lockstep (c : IndexCore) : Prop :=
  ∀ id ∈ vectorIds c, id ∈ c.graphNodes

/-- Concrete skill used to exercise the model: depends on `repo/b`. -/
def wSkillA : Skill :=
  ⟨"repo/a", "skill-a", "first demo skill", "use skill a", "testing",
    ["python"], ["repo/b"], "repo"⟩

/-- Concrete skill used to exercise the model. -/
def wSkillB : Skill :=
  ⟨"repo/b", "skill-b", "second demo skill", "use skill b", "testing",
    ["python"], [], "repo"⟩

/-- Engine state after indexing `wSkillA` into the empty engine. -/
def wIndexed : EngineState := index_skill emptyEngine wSkillA

/-- Engine state produced by a forced reindex of the two demo skills. -/
def wReindexed : EngineState :=
  ⟨[wSkillA, wSkillB].foldl index_core emptyCore, some 7⟩

/-- Engine state produced by a forced reindex of `wSkillA` alone at time 1. -/
def wState1 : EngineState := ⟨[wSkillA].foldl index_core emptyCore, some 1⟩

/-- Engine state produced by a forced reindex of `wSkillA` alone at time 2. -/
def wState2 : EngineState := ⟨[wSkillA].foldl index_core emptyCore, some 2⟩

theorem mem_ids_upsert_self (e : VectorEntry) (l : List VectorEntry) :
    e.id ∈ (upsertEntry e l).map VectorEntry.id := by
  induction l with
  | nil => simp [upsertEntry]
  | cons x xs ih =>
    by_cases h : x.id = e.id
    · simp [upsertEntry, h]
    · simp only [upsertEntry, if_neg h, List.map_cons, List.mem_cons]
      exact Or.inr ih

theorem mem_ids_upsert {a : String} (e : VectorEntry) (l : List VectorEntry)
    (h : a ∈ (upsertEntry e l).map VectorEntry.id) :
    a = e.id ∨ a ∈ l.map VectorEntry.id := by
  induction l with
  | nil => simpa [upsertEntry] using h
  | cons x xs ih =>
    by_cases hx : x.id = e.id
    · simp only [upsertEntry, if_pos hx, List.map_cons, List.mem_cons] at h
      rcases h with h | h
      · exact Or.inl h
      · exact Or.inr (List.mem_cons_of_mem _ h)
    · simp only [upsertEntry, if_neg hx, List.map_cons, List.mem_cons] at h
      rcases h with h | h
      · exact Or.inr (by simp [h])
      · rcases ih h with h' | h'
        · exact Or.inl h'
        · exact Or.inr (List.mem_cons_of_mem _ h')

theorem mem_addNode_self (id : String) (l : List String) : id ∈ addNode id l := by
  unfold addNode
  split
  · assumption
  · simp

theorem mem_addNode_of_mem {a id : String} {l : List String} (h : a ∈ l) :
    a ∈ addNode id l := by
  unfold addNode
  split
  · exact h
  · simp [h]

theorem lockstep_emptyCore : lockstep emptyCore := by
  intro id h
  simp [vectorIds, emptyCore] at h

theorem lockstep_index_core {c : IndexCore} (s : Skill) (h : lockstep c) :
    lockstep (index_core c s) := by
  intro id hid
  have hid' : id ∈ (upsertEntry (mkEntry s) c.entries).map VectorEntry.id := hid
  rcases mem_ids_upsert (mkEntry s) c.entries hid' with heq | hmem
  · have : id = s.id := heq
    subst this
    exact mem_addNode_self _ _
  · exact mem_addNode_of_mem (h id hmem)

theorem lockstep_foldl (skills : List Skill) :
    ∀ c : IndexCore, lockstep c → lockstep (skills.foldl index_core c) := by
  induction skills with
  | nil => intro c h; exact h
  | cons s rest ih =>
    intro c h
    exact ih _ (lockstep_index_core s h)

theorem mem_insertDesc {a p : CombinedResult} {l : List CombinedResult} :
    a ∈ insertDesc p l ↔ a = p ∨ a ∈ l := by
  induction l with
  | nil => simp [insertDesc]
  | cons q rest ih =>
    unfold insertDesc
    split
    · simp only [List.mem_cons, ih]
      tauto
    · simp [List.mem_cons]

theorem mem_sortDesc {a : CombinedResult} {l : List CombinedResult} :
    a ∈ sortDesc l ↔ a ∈ l := by
  induction l with
  | nil => simp [sortDesc]
  | cons q rest ih =>
    show a ∈ insertDesc q (sortDesc rest) ↔ _
    rw [mem_insertDesc]
    simp [ih]

theorem map_sum_congr {α : Type} {l : List α} {f g : α → Nat}
    (h : ∀ a ∈ l, f a = g a) : (l.map f).sum = (l.map g).sum := by
  induction l with
  | nil => rfl
  | cons x xs ih =>
    simp only [List.map_cons, List.sum_cons]
    rw [h x (by simp), ih fun a ha => h a (List.mem_cons_of_mem _ ha)]

theorem mapScoresE_error {simE : String → Except String ℚ}
    {l : List VectorEntry} {msg : String}
    (h : mapScoresE simE l = Except.error msg) :
    ∃ e ∈ l, simE e.text = Except.error msg := by
  induction l with
  | nil => simp [mapScoresE] at h
  | cons e rest ih =>
    unfold mapScoresE at h
    cases he : simE e.text with
    | error m =>
      rw [he] at h
      cases h
      exact ⟨e, by simp, he⟩
    | ok sc =>
      rw [he] at h
      cases hr : mapScoresE simE rest with
      | error m =>
        rw [hr] at h
        cases h
        obtain ⟨e', he', hfail⟩ := ih hr
        exact ⟨e', List.mem_cons_of_mem _ he', hfail⟩
      | ok l' =>
        rw [hr] at h
        cases h

theorem length_search_le (st : EngineState) (sim : String → String → ℚ)
    (loadSkill : String → Option Skill) (query : String)
    (category toolchain : Option String) (tags : List String)
    (topK : Nat) (vw gw : ℚ) :
    (search st sim loadSkill query category toolchain tags topK vw gw).length ≤ topK := by
  unfold search
  split
  · simp
  · simp only [List.length_take]
    omega

/-- C1: for every skill `s` passed to `index_skill`, immediately after the
call `s.id` is present both in the Vector Index and as a node of the
Relationship Graph, and the per-skill lockstep between the two indices is
preserved by every successful `reindex_all`. -/
theorem index_skill_and_reindex_keep_lockstep :
    (∀ (st : EngineState) (s : Skill),
      s.id ∈ vectorIds (index_skill st s).core
      ∧ s.id ∈ (index_skill st s).core.graphNodes)
    ∧ (∀ (st : EngineState) (force : Bool) (skills : List Skill) (now : Nat)
        (st' : EngineState) (stats : IndexStats),
        lockstep st.core →
        reindex_all st force (some skills) now = Except.ok (st', stats) →
        lockstep st'.core) := by
  constructor
  · intro st s
    exact ⟨mem_ids_upsert_self (mkEntry s) st.core.entries,
      mem_addNode_self s.id st.core.graphNodes⟩
  · intro st force skills now st' stats h heq
    simp only [reindex_all, Except.ok.injEq, Prod.mk.injEq] at heq
    obtain ⟨h1, h2⟩ := heq
    subst h1
    apply lockstep_foldl
    cases force with
    | true => simpa using lockstep_emptyCore
    | false => simpa using h

/-- Witness for C1 at the two demo skills: `index_skill` puts `repo/a` in
both indices, and after a forced reindex every vector id, `repo/b` in
particular, is a graph node. -/
theorem index_skill_and_reindex_keep_lockstep_witness :
    (wSkillA.id ∈ vectorIds (index_skill emptyEngine wSkillA).core
     ∧ wSkillA.id ∈ (index_skill emptyEngine wSkillA).core.graphNodes)
    ∧ wSkillB.id ∈ wReindexed.core.graphNodes :=
  ⟨index_skill_and_reindex_keep_lockstep.1 emptyEngine wSkillA,
    index_skill_and_reindex_keep_lockstep.2 emptyEngine true [wSkillA, wSkillB] 7
      wReindexed (get_stats wReindexed) lockstep_emptyCore rfl wSkillB.id (by decide)⟩

/-- C4: `reindex_all(force=true)` is idempotent — two successive forced
reindexes over the same discoverable skill set report identical
`total_skills` and `graph_nodes`. -/
theorem reindex_all_force_idempotent :
    ∀ (st : EngineState) (skills : List Skill) (now1 now2 : Nat)
      (st1 st2 : EngineState) (stats1 stats2 : IndexStats),
      reindex_all st true (some skills) now1 = Except.ok (st1, stats1) →
      reindex_all st1 true (some skills) now2 = Except.ok (st2, stats2) →
      stats1.total_skills = stats2.total_skills
      ∧ stats1.graph_nodes = stats2.graph_nodes := by
  intro st skills now1 now2 st1 st2 stats1 stats2 h1 h2
  simp only [reindex_all, if_true, Except.ok.injEq, Prod.mk.injEq] at h1 h2
  obtain ⟨h1a, h1b⟩ := h1
  obtain ⟨h2a, h2b⟩ := h2
  subst h1b
  subst h2b
  exact ⟨rfl, rfl⟩

/-- Witness for C4: two forced reindexes of the single demo skill yield
the same skill and node counts. -/
theorem reindex_all_force_idempotent_witness :
    (get_stats wState1).total_skills = (get_stats wState2).total_skills
    ∧ (get_stats wState1).graph_nodes = (get_stats wState2).graph_nodes :=
  reindex_all_force_idempotent emptyEngine [wSkillA] 1 2 wState1 wState2
    (get_stats wState1) (get_stats wState2) rfl rfl

/-- C5: for every corpus state, searching with the empty query returns the
empty list, and the result does not depend on the similarity oracle — the
underlying similarity computation is never consulted. -/
theorem search_empty_query_returns_empty :
    ∀ (st : EngineState) (sim sim2 : String → String → ℚ)
      (loadSkill : String → Option Skill) (category toolchain : Option String)
      (tags : List String) (topK : Nat) (vw gw : ℚ),
      search st sim loadSkill "" category toolchain tags topK vw gw = []
      ∧ search st sim loadSkill "" category toolchain tags topK vw gw
        = search st sim2 loadSkill "" category toolchain tags topK vw gw := by
  intro st sim sim2 loadSkill category toolchain tags topK vw gw
  exact ⟨rfl, rfl⟩

/-- C6: a `search_skills` request with limit above 50 is silently capped,
not rejected: the call completes and returns at most 50 results. -/
theorem search_skills_caps_limit :
    ∀ (st : EngineState) (sim : String → String → ℚ)
      (loadSkill : String → Option Skill) (query : String)
      (category toolchain : Option String) (tags : List String)
      (limit : Nat) (vw gw : ℚ),
      50 < limit →
      (search_skills st sim loadSkill query category toolchain tags limit vw gw).status
        = "completed"
      ∧ (search_skills st sim loadSkill query category toolchain tags limit vw gw).skills.length
        ≤ 50 := by
  intro st sim loadSkill query category toolchain tags limit vw gw _
  refine ⟨rfl, ?_⟩
  exact Nat.le_trans
    (length_search_le st sim loadSkill query category toolchain tags (min limit 50) vw gw)
    (Nat.min_le_right _ _)

/-- Witness for C6: a request with limit 100 against the demo state
completes with at most 50 results. -/
theorem search_skills_caps_limit_witness :
    50 < 100
    ∧ ((search_skills wIndexed (fun _ _ => (1 : ℚ)) (fun _ => none) "testing"
          none none [] 100 (7 / 10) (3 / 10)).status = "completed"
       ∧ (search_skills wIndexed (fun _ _ => (1 : ℚ)) (fun _ => none) "testing"
          none none [] 100 (7 / 10) (3 / 10)).skills.length ≤ 50) :=
  ⟨by decide,
    search_skills_caps_limit wIndexed (fun _ _ => (1 : ℚ)) (fun _ => none) "testing"
      none none [] 100 (7 / 10) (3 / 10) (by decide)⟩

/-- C8: `reindex_all` with no configured Skill Source fails fast with the
configuration error, for either value of the force flag. -/
theorem reindex_all_requires_skill_source :
    ∀ (st : EngineState) (force : Bool) (now : Nat),
      reindex_all st force none now = Except.error "SkillManager not set" := by
  intro st force now
  rfl

/-- C10: `get_stats` reports `vector_store_size` as exactly
`total_skills * 2048` bytes, and the size is positive whenever at least one
skill is indexed. -/
theorem get_stats_size_is_fixed_estimate :
    ∀ st : EngineState,
      (get_stats st).vector_store_size = (get_stats st).total_skills * 2048
      ∧ (1 ≤ (get_stats st).total_skills → 0 < (get_stats st).vector_store_size) := by
  intro st
  refine ⟨rfl, ?_⟩
  intro h
  have h2048 : 0 < (2048 : Nat) := by decide
  simpa [get_stats] using Nat.mul_pos (show 0 < st.core.entries.length from h) h2048

/-- Witness for C10: after indexing one demo skill the reported size is
positive. -/
theorem get_stats_size_is_fixed_estimate_witness :
    1 ≤ (get_stats wIndexed).total_skills
    ∧ 0 < (get_stats wIndexed).vector_store_size :=
  ⟨by decide, (get_stats_size_is_fixed_estimate wIndexed).2 (by decide)⟩

/-- C2: every candidate of the hybrid result combination carries the fused
score `vector_weight * vector_score + graph_weight * graph_score` with
missing scores defaulting to 0; with the default weights 0.7/0.3 a
candidate scoring 1.0 in the vector set and 0.5 in the graph set fuses to
0.85, within tolerance 1e-6. -/
theorem combine_results_weighted_fusion :
    (∀ (vw gw : ℚ) (vres gres : List (String × ℚ)),
      (combine_results vw gw vres gres).Forall (fun c =>
        c.score = vw * (lookupScore vres c.skill_id).getD 0
          + gw * (lookupScore gres c.skill_id).getD 0))
    ∧ ((combine_results (7 / 10) (3 / 10) [("s", 1)] [("s", 1 / 2)]).map
        CombinedResult.score = [17 / 20]
       ∧ |(17 : ℚ) / 20 - 85 / 100| ≤ 1 / 1000000) := by
  constructor
  · intro vw gw vres gres
    rw [List.forall_iff_forall_mem]
    intro c hc
    simp only [combine_results] at hc
    rw [mem_sortDesc] at hc
    obtain ⟨id, _, rfl⟩ := List.mem_map.mp hc
    rfl
  · constructor
    · norm_num [combine_results, dedup, dedupAux, sortDesc, insertDesc,
        lookupScore, List.find?]
    · norm_num

/-- C3: one Auto-Updater pass triggers `reindex_all(force=true)` exactly
once when the aggregate skill count over the successfully updated stale
repositories changed, and never when no updated repository's skill count
changed. -/
theorem check_and_update_reindex_policy :
    ∀ (cfg : AutoUpdateConfig) (now : Nat) (repos : List Repository)
      (update : String → Except String Repository)
      (ro : Except String IndexStats),
      cfg.enabled = true →
      ((∀ p ∈ successfulUpdates (staleRepos cfg now repos) update,
          p.2.skill_count = p.1.skill_count) →
        (check_and_update cfg now repos update ro).reindexCalls = 0)
      ∧ (aggBefore cfg now repos update ≠ aggAfter cfg now repos update →
        (check_and_update cfg now repos update ro).reindexCalls = 1) := by
  intro cfg now repos update ro hen
  constructor
  · intro hsame
    have hsum : aggBefore cfg now repos update = aggAfter cfg now repos update :=
      map_sum_congr (fun p hp => (hsame p hp).symm)
    simp [check_and_update, hen, hsum]
  · intro hdiff
    simp [check_and_update, hen, hdiff]

/-- Witness for C3 mirroring the repository tests: with one stale
repository left unchanged by its update the pass does not reindex, and
with a stale repository whose count changes it reindexes exactly once. -/
theorem check_and_update_reindex_policy_witness :
    ((check_and_update ⟨true, 24⟩ 100
        [⟨"repo/stale", 10, 5⟩]
        (fun _ => Except.ok ⟨"repo/stale", 100, 5⟩)
        (Except.ok (get_stats emptyEngine))).reindexCalls = 0)
    ∧ ((check_and_update ⟨true, 24⟩ 100
        [⟨"repo/stale", 10, 5⟩]
        (fun _ => Except.ok ⟨"repo/stale", 100, 10⟩)
        (Except.ok (get_stats emptyEngine))).reindexCalls = 1) :=
  ⟨(check_and_update_reindex_policy ⟨true, 24⟩ 100 [⟨"repo/stale", 10, 5⟩]
      (fun _ => Except.ok ⟨"repo/stale", 100, 5⟩)
      (Except.ok (get_stats emptyEngine)) rfl).1 (by decide),
    (check_and_update_reindex_policy ⟨true, 24⟩ 100 [⟨"repo/stale", 10, 5⟩]
      (fun _ => Except.ok ⟨"repo/stale", 100, 10⟩)
      (Except.ok (get_stats emptyEngine)) rfl).2 (by decide)⟩

/-- C7: invalid fusion weights are rejected when the configuration or the
hybrid searcher is constructed; a successfully constructed searcher has
valid weights; and the query path can only fail with an error produced by
the similarity oracle, so no per-query weight validation error exists. -/
theorem fusion_weights_validated_at_construction :
    (∀ vw gw : ℚ, ¬ |vw + gw - 1| ≤ weightTolerance →
      mkHybridSearchConfig vw gw = Except.error "Weights must sum to 1.0"
      ∧ mkHybridSearcher vw gw = Except.error "Weights must sum to 1.0")
    ∧ (∀ (vw gw : ℚ) (s : HybridSearcher),
        mkHybridSearcher vw gw = Except.ok s →
        |s.vector_weight + s.graph_weight - 1| ≤ weightTolerance)
    ∧ (∀ (st : EngineState) (simE : String → String → Except String ℚ)
        (loadSkill : String → Option Skill) (query : String)
        (category toolchain : Option String) (tags : List String)
        (topK : Nat) (vw gw : ℚ) (msg : String),
        searchE st simE loadSkill query category toolchain tags topK vw gw
          = Except.error msg →
        ∃ e ∈ st.core.entries, simE query e.text = Except.error msg) := by
  refine ⟨?_, ?_, ?_⟩
  · intro vw gw h
    unfold mkHybridSearchConfig mkHybridSearcher
    rw [if_neg h, if_neg h]
    exact ⟨rfl, rfl⟩
  · intro vw gw s h
    unfold mkHybridSearcher at h
    split at h
    · cases h
      assumption
    · cases h
  · intro st simE loadSkill query category toolchain tags topK vw gw msg h
    unfold searchE at h
    split at h
    · cases h
    · split at h
      · rename_i hm
        cases h
        obtain ⟨e, he, hfail⟩ := mapScoresE_error hm
        exact ⟨e, (List.mem_filter.mp he).1, hfail⟩
      · cases h

/-- Witness for C7: the invalid pair (0.5, 0.6) is rejected at
construction, the valid default pair is accepted with valid weights, and a
query whose similarity oracle fails surfaces exactly that failure. -/
theorem fusion_weights_validated_at_construction_witness :
    (mkHybridSearchConfig (1 / 2) (3 / 5) = Except.error "Weights must sum to 1.0"
     ∧ mkHybridSearcher (1 / 2) (3 / 5) = Except.error "Weights must sum to 1.0")
    ∧ |(7 : ℚ) / 10 + 3 / 10 - 1| ≤ weightTolerance
    ∧ ∃ e ∈ wIndexed.core.entries,
        (fun _ _ => (Except.error "embedding failure" : Except String ℚ)) "testing" e.text
          = Except.error "embedding failure" :=
  ⟨fusion_weights_validated_at_construction.1 (1 / 2) (3 / 5)
      (by
        rw [weightTolerance,
          show (1 : ℚ) / 2 + 3 / 5 - 1 = 1 / 10 by norm_num,
          abs_of_nonneg (by norm_num : (0 : ℚ) ≤ 1 / 10)]
        norm_num),
    fusion_weights_validated_at_construction.2.1 (7 / 10) (3 / 10) ⟨7 / 10, 3 / 10⟩
      (by rw [mkHybridSearcher, if_pos (by rw [weightTolerance]; norm_num)]),
    fusion_weights_validated_at_construction.2.2 wIndexed
      (fun _ _ => Except.error "embedding failure") (fun _ => none) "testing"
      none none [] 5 (7 / 10) (3 / 10) "embedding failure" rfl⟩

/-- C9: an Auto-Updater pass never propagates an exception: every stale
repository is attempted no matter which updates fail, and a failing
reindex is recorded in the returned result instead of escaping. -/
theorem check_and_update_never_raises :
    ∀ (cfg : AutoUpdateConfig) (now : Nat) (repos : List Repository)
      (update : String → Except String Repository)
      (ro : Except String IndexStats),
      cfg.enabled = true →
      (check_and_update cfg now repos update ro).updatesAttempted
        = (staleRepos cfg now repos).map Repository.id
      ∧ (∀ e : String, ro = Except.error e →
          (check_and_update cfg now repos update ro).reindexCalls = 1 →
          (check_and_update cfg now repos update ro).reindexError = some e) := by
  intro cfg now repos update ro hen
  by_cases hagg : aggBefore cfg now repos update = aggAfter cfg now repos update
  · constructor
    · simp [check_and_update, hen, hagg]
    · intro e _ h1
      simp [check_and_update, hen, hagg] at h1
  · constructor
    · simp [check_and_update, hen, hagg]
    · intro e hro _
      subst hro
      simp [check_and_update, hen, hagg, caughtReindexError]

/-- Witness for C9 mirroring the failure tests: with the first update
failing and the reindex failing, both stale repositories are still
attempted and the reindex error is caught in the result. -/
theorem check_and_update_never_raises_witness :
    (check_and_update ⟨true, 24⟩ 100
        [⟨"repo/s1", 10, 5⟩, ⟨"repo/s2", 10, 3⟩]
        (fun id => if id = "repo/s1" then Except.error "Network error"
                   else Except.ok ⟨"repo/s2", 100, 4⟩)
        (Except.error "ChromaDB error")).updatesAttempted
      = (staleRepos ⟨true, 24⟩ 100
          [⟨"repo/s1", 10, 5⟩, ⟨"repo/s2", 10, 3⟩]).map Repository.id
    ∧ (check_and_update ⟨true, 24⟩ 100
        [⟨"repo/s1", 10, 5⟩, ⟨"repo/s2", 10, 3⟩]
        (fun id => if id = "repo/s1" then Except.error "Network error"
                   else Except.ok ⟨"repo/s2", 100, 4⟩)
        (Except.error "ChromaDB error")).reindexError = some "ChromaDB error" :=
  ⟨(check_and_update_never_raises ⟨true, 24⟩ 100
      [⟨"repo/s1", 10, 5⟩, ⟨"repo/s2", 10, 3⟩]
      (fun id => if id = "repo/s1" then Except.error "Network error"
                 else Except.ok ⟨"repo/s2", 100, 4⟩)
      (Except.error "ChromaDB error") rfl).1,
    (check_and_update_never_raises ⟨true, 24⟩ 100
      [⟨"repo/s1", 10, 5⟩, ⟨"repo/s2", 10, 3⟩]
      (fun id => if id = "repo/s1" then Except.error "Network error"
                 else Except.ok ⟨"repo/s2", 100, 4⟩)
      (Except.error "ChromaDB error") rfl).2 "ChromaDB error" rfl (by decide)⟩

end MCPSkillset
